import Mathlib

/-!
Verification of the FrontendJS engine (`src/frontend.js`) against its
natural-language specification.

The JavaScript source is shallowly embedded: JS values become the inductive
`Value` (with `Option Value` standing for possibly-`undefined` results, and
`Value.vNull` standing for `null`), JS objects become insertion-ordered
association lists, and the DOM / network / dynamic-`Function` evaluation are
supplied as explicit oracles.  Each definition below is a direct transcription
of the correspondingly named function in `src/frontend.js`.
-/

namespace FrontendJS

/-! ## JS value model -/

/-- A JavaScript value as stored in the engine's state tree.
Objects are insertion-ordered association lists (JS objects preserve string-key
insertion order); arrays are element lists.  `undefined` is represented by
`Option.none` at use sites, never stored inside a `Value`. -/
inductive Value where
  | vStr (s : String)
  | vNum (n : Int)
  | vBool (b : Bool)
  | vNull
  | vObj (fields : List (String × Value))
  | vArr (elems : List Value)
deriving Repr

/-- First-match association-list lookup, modelling JS own-property access on a
plain object. -/
def lookupA {α : Type} : List (String × α) → String → Option α
  | [], _ => none
  | (k, v) :: rest, key => if k = key then some v else lookupA rest key

/-- JS `obj[k] = v` on a plain object: replace in place if the key exists
(keeping its position), otherwise append (insertion order). -/
def objSet {α : Type} : List (String × α) → String → α → List (String × α)
  | [], key, v => [(key, v)]
  | (k, w) :: rest, key, v =>
    if k = key then (k, v) :: rest else (k, w) :: objSet rest key v

/-- JS `delete obj[k]` on a plain object.  A JS object holds each key at most
once; on such duplicate-free lists removing every occurrence coincides with
removing the one property, and it keeps the model's operations total on all
association lists. -/
def objDel {α : Type} : List (String × α) → String → List (String × α)
  | [], _ => []
  | (k, w) :: rest, key =>
    if k = key then objDel rest key else (k, w) :: objDel rest key

/-- JS whitespace class `\s` (the members that fit in the model; NBSP and the
other exotic members are untokenizable by the engine's inputs anyway). -/
def isJsSpace (c : Char) : Bool :=
  c = ' ' || c = '\t' || c = '\n' || c = '\r' || c = '\x0b' || c = '\x0c'

/-- Parse a non-empty all-digit string to a natural number. -/
def strToNat? (s : String) : Option Nat :=
  if s.data.isEmpty then none
  else if s.data.all Char.isDigit then
    some (s.data.foldl (fun n c => n * 10 + (c.toNat - '0'.toNat)) 0)
  else none

/-- A canonical JS array index: the string is the decimal rendering of `i`. -/
def canonIndex (k : String) : Option Nat :=
  match strToNat? k with
  | some i => if toString i = k then some i else none
  | none => none

/-- JS property read `obj[k]` (own properties; for arrays also `length` and
canonical indices, for strings `length`).  Primitive receivers yield
`undefined`, never a throw. -/
def jsIndex : Value → String → Option Value
  | .vObj fs, k => lookupA fs k
  | .vArr es, k =>
    if k = "length" then some (.vNum es.length)
    else match canonIndex k with
      | some i => es.get? i
      | none => none
  | .vStr s, k => if k = "length" then some (.vNum s.length) else none
  | _, _ => none

/-- The JS `in` operator, `k in obj`.  `none` models the `TypeError` JS throws
when the right operand is a primitive. -/
def jsIn (k : String) : Value → Option Bool
  | .vObj fs => some (lookupA fs k).isSome
  | .vArr es =>
    some (k = "length" || (match canonIndex k with
      | some i => decide (i < es.length)
      | none => false))
  | _ => none

/-- JS property write `obj[k] = v` on a reference value.  On arrays only
in-range or appending canonical indices are represented; JS additionally
stores other keys as expando properties on the array object, a corner that no
statement below exercises.  Writes to primitives (silent no-ops in sloppy
mode) are unreachable in the embedded code paths. -/
def jsSetProp : Value → String → Value → Value
  | .vObj fs, k, v => .vObj (objSet fs k v)
  | .vArr es, k, v =>
    (match canonIndex k with
      | some i =>
        if i < es.length then .vArr (es.set i v)
        else if i = es.length then .vArr (es ++ [v])
        else .vArr es
      | none => .vArr es)
  | obj, _, _ => obj

/-- JS `delete obj[k]` on a reference value.  Deleting an array index leaves a
hole in JS; the model substitutes `null` there, a corner no theorem below
exercises (the embedded store only deletes object keys). -/
def jsDelProp : Value → String → Value
  | .vObj fs, k => .vObj (objDel fs k)
  | .vArr es, k =>
    (match canonIndex k with
      | some i => .vArr (es.set i .vNull)
      | none => .vArr es)
  | obj, _ => obj

/-- JS truthiness. -/
def jsTruthy : Option Value → Bool
  | none => false
  | some .vNull => false
  | some (.vBool b) => b
  | some (.vNum n) => decide (n ≠ 0)
  | some (.vStr s) => decide (s ≠ "")
  | some (.vObj _) => true
  | some (.vArr _) => true

mutual

/-- JS `String(value)` coercion for the modelled values. -/
def jsToString : Value → String
  | .vStr s => s
  | .vNum n => toString n
  | .vBool b => cond b "true" "false"
  | .vNull => "null"
  | .vObj _ => "[object Object]"
  | .vArr es => jsArrString es

/-- `Array.prototype.toString`: comma-joined elements, `null` rendering empty. -/
def jsArrString : List Value → String
  | [] => ""
  | [v] => jsElemString v
  | v :: rest => jsElemString v ++ "," ++ jsArrString rest

/-- One array element inside a join: `null` renders as the empty string. -/
def jsElemString : Value → String
  | .vNull => ""
  | v => jsToString v

end

/-- JS `split` with a single-character separator, on char lists:
`"" → [""]`, `"a.b" → ["a","b"]`, `"a..b" → ["a","","b"]`. -/
def splitCharList (sep : Char) : List Char → List (List Char)
  | [] => [[]]
  | c :: cs =>
    if c = sep then [] :: splitCharList sep cs
    else
      match splitCharList sep cs with
      | [] => [[c]]
      | g :: gs => (c :: g) :: gs

/-- `path.split(".")` from the JS store code. -/
def splitDots (s : String) : List String :=
  (splitCharList '.' s.data).map String.mk

/-- JS `split("-")` used by the dispatcher on attribute names. -/
def splitDashes (s : String) : List String :=
  (splitCharList '-' s.data).map String.mk

/-- JS `String.prototype.startsWith`. -/
def strStartsWith (s pre : String) : Bool :=
  pre.data.isPrefixOf s.data

/-- JS `String.prototype.endsWith`. -/
def strEndsWith (s suf : String) : Bool :=
  suf.data.isSuffixOf s.data

/-- JS `String.prototype.toLowerCase` (per-character). -/
def jsToLower (s : String) : String :=
  String.mk (s.data.map Char.toLower)

/-- JS `String.prototype.trim`: strip `\s` from both ends. -/
def jsTrim (s : String) : String :=
  String.mk (((s.data.dropWhile isJsSpace).reverse.dropWhile isJsSpace).reverse)

/-- Falsiness of a `getAttribute` result: absent (`null`) or empty string. -/
def jsFalsyS : Option String → Bool
  | none => true
  | some s => decide (s = "")

/-! ## Store (`setData`, `getData`, `removeData`, `resetState`)

The global `state` object is the root association list.  Every mutation hands
a typed change notification to `dispatchDataEvent`; the store model records
those notifications as `Ev` values (the dispatcher's document-side effects are
modelled separately for the directive claims). -/

/-- The root state object of the engine. -/
abbrev State := List (String × Value)

/-- The notification type carried to `dispatchDataEvent`. -/
inductive EvType where
  | added
  | changed
  | deleted
deriving Repr, DecidableEq

/-- One `dispatchDataEvent(type, path, value, oldValue)` call, with `none`
standing for `undefined` arguments. -/
structure Ev where
  type : EvType
  path : String
  value : Option Value
  oldValue : Option Value
deriving Repr

/-- How a store mutation call returned. -/
inductive SetOutcome where
  | ok (evs : List Ev)
  | abortMissing
  | warnRemoveMissing
  | typeError

/-- Immediate entries of a container, as the fan-out loop of `setData`
enumerates them: object field names, or array indices rendered in decimal. -/
def childKeys : Value → List String
  | .vObj fs => fs.map (·.1)
  | .vArr es => (List.range es.length).map toString
  | _ => []

/-- The per-child `added` notifications `setData` fires for an object or array
value: each carries the path extended by the child key, the WHOLE parent value
(the JS code passes `value`, not `value[key]`) and an `undefined` old value. -/
def fanoutEvents (path : String) (v : Value) : List Ev :=
  (childKeys v).map (fun k => ⟨.added, path ++ "." ++ k, some v, none⟩)

/-- The traversal-and-write loop of `setData`, transcribed key by key:
`for` each intermediate key, `if (!(k in obj)) return` with a diagnostic;
at the final key, `existed = lastKey in obj`, then delete (nullish value) or
assign and dispatch, then fan out for container values. -/
def setGo (path : String) (v : Option Value) : Value → List String → Value × SetOutcome
  | obj, [] => (obj, .typeError)
  | obj, [lastKey] =>
    (match jsIn lastKey obj with
     | none => (obj, .typeError)
     | some existed =>
       let oldValue := jsIndex obj lastKey
       match v with
       | none =>
         if existed then (jsDelProp obj lastKey, .ok [⟨.deleted, path, none, oldValue⟩])
         else (obj, .warnRemoveMissing)
       | some .vNull =>
         if existed then (jsDelProp obj lastKey, .ok [⟨.deleted, path, none, oldValue⟩])
         else (obj, .warnRemoveMissing)
       | some val =>
         let mainEv : Ev := ⟨if existed then .changed else .added, path, some val, oldValue⟩
         let extra :=
           match val with
           | .vObj _ => fanoutEvents path val
           | .vArr _ => fanoutEvents path val
           | _ => []
         (jsSetProp obj lastKey val, .ok (mainEv :: extra)))
  | obj, k :: k' :: rest =>
    (match jsIn k obj with
     | none => (obj, .typeError)
     | some false => (obj, .abortMissing)
     | some true =>
       match jsIndex obj k with
       | none => (obj, .typeError)
       | some child =>
         match setGo path v child (k' :: rest) with
         | (child', .ok evs) => (jsSetProp obj k child', .ok evs)
         | (_, out) => (obj, out))

/-- `Frontend.setData(path, value)` from `src/frontend.js` (lines 1262-1314):
split the path on dots, walk to the parent container aborting with a
diagnostic if an intermediate key is absent, then remove (nullish value) or
write, classify `added`/`changed`, and fan out per-child `added` events for
container values. -/
def setData (st : State) (path : String) (v : Option Value) : State × SetOutcome :=
  match setGo path v (.vObj st) (splitDots path) with
  | (.vObj st', out) => (st', out)
  | (_, out) => (st, out)

/-- The reduce callback of `getData`: `(o, k) => (o != null ? o[k] :
undefined)`.  Loose `!= null` rejects both `null` and `undefined`. -/
def getStep (o : Option Value) (k : String) : Option Value :=
  match o with
  | some .vNull => none
  | some v => jsIndex v k
  | none => none

/-- `Frontend.getData(path)`: `path.split(".").reduce((o, k) => (o != null ?
o[k] : undefined), state)`.  Reading never throws. -/
def getData (st : State) (path : String) : Option Value :=
  (splitDots path).foldl getStep (some (.vObj st))

/-- The traversal-and-delete loop of `removeData`: a missing intermediate key
returns silently; at the final key, delete and dispatch `deleted` only if
present. -/
def removeGo (path : String) : Value → List String → Value × SetOutcome
  | obj, [] => (obj, .typeError)
  | obj, [lastKey] =>
    (match jsIn lastKey obj with
     | none => (obj, .typeError)
     | some true => (jsDelProp obj lastKey, .ok [⟨.deleted, path, none, jsIndex obj lastKey⟩])
     | some false => (obj, .ok []))
  | obj, k :: k' :: rest =>
    (match jsIn k obj with
     | none => (obj, .typeError)
     | some false => (obj, .ok [])
     | some true =>
       match jsIndex obj k with
       | none => (obj, .typeError)
       | some child =>
         match removeGo path child (k' :: rest) with
         | (child', .ok evs) => (jsSetProp obj k child', .ok evs)
         | (_, out) => (obj, out))

/-- `Frontend.removeData(path)` from `src/frontend.js` (lines 1329-1347). -/
def removeData (st : State) (path : String) : State × SetOutcome :=
  match removeGo path (.vObj st) (splitDots path) with
  | (.vObj st', out) => (st', out)
  | (_, out) => (st, out)

/-- `Frontend.resetState()`: delete every top-level key in insertion order,
dispatching one `deleted` notification per key. -/
def resetState (st : State) : State × List Ev :=
  ([], st.map (fun kv => ⟨.deleted, kv.1, none, some kv.2⟩))

/-- The "missing intermediate container" scenario of claim C2: walking the
intermediate path segments, some traversed container (object or array) lacks
the next segment — with the failure being a missing key, not the `TypeError`
of traversing through a primitive. -/
def missingIntermediate : Value → List String → Bool
  | _, [] => false
  | _, [_] => false
  | obj, k :: k' :: rest =>
    (match jsIn k obj with
     | none => false
     | some false => true
     | some true =>
       match jsIndex obj k with
       | none => false
       | some child => missingIntermediate child (k' :: rest))

/-! ## Substitution engine (`substituteParams`)

`substituteParams(html, params)` is a global regex replace of
`/\x7b\x7b\s*([\w.$-]+)\s*\x7d\x7d/g`.  The scanner below reproduces the
regex's leftmost, non-overlapping matching; since the token character class,
the whitespace class and the closing brace are pairwise disjoint, the regex
needs no backtracking and greedy scanning is exact. -/

/-- The regex character class `[\w.$-]` of a placeholder key. -/
def isTokenChar (c : Char) : Bool :=
  c.isAlphanum || c = '_' || c = '.' || c = '$' || c = '-'

/-- Try to match one placeholder token at the head of the input; on success
return the captured key, the full matched text, and the rest of the input. -/
def matchToken : List Char → Option (String × List Char × List Char)
  | '\x7b' :: '\x7b' :: rest =>
    let ws1 := rest.takeWhile isJsSpace
    let r1 := rest.dropWhile isJsSpace
    let kcs := r1.takeWhile isTokenChar
    if kcs.isEmpty then none
    else
      let r2 := r1.dropWhile isTokenChar
      let ws2 := r2.takeWhile isJsSpace
      match r2.dropWhile isJsSpace with
      | '\x7d' :: '\x7d' :: rest' =>
        some (String.mk kcs,
              '\x7b' :: '\x7b' :: (ws1 ++ kcs ++ ws2 ++ ['\x7d', '\x7d']),
              rest')
      | _ => none
  | _ => none

/-- The replacement callback `(match, key) => ...` of `substituteParams`:
(1) explicit fragment params take priority; (2) fall back to global state via
`getData`, only if neither `undefined` nor `null`; (3) otherwise return the
matched text unchanged. -/
def resolveToken (params : List (String × String)) (st : State) (key raw : String) : String :=
  match lookupA params key with
  | some v => v
  | none =>
    match getData st key with
    | some .vNull => raw
    | some v => jsToString v
    | none => raw

/-- The replace scan: at each position either substitute a token match or emit
one character.  Fuel is the input length; every step consumes at least one
character, so the fuel never runs out when initialized that way. -/
def scanSubst (params : List (String × String)) (st : State) : Nat → List Char → List Char
  | 0, cs => cs
  | _ + 1, [] => []
  | fuel + 1, c :: cs =>
    match matchToken (c :: cs) with
    | some (key, raw, rest) =>
      (resolveToken params st key (String.mk raw)).data ++ scanSubst params st fuel rest
    | none => c :: scanSubst params st fuel cs

/-- `substituteParams(html, params)` from `src/frontend.js` (lines 1017-1029),
with the global state passed explicitly. -/
def substituteParams (params : List (String × String)) (st : State) (html : String) : String :=
  String.mk (scanSubst params st html.data.length html.data)

/-! ## Directive compiler (`applyDataBindingsToElement`)

A `<data-binding key="..." target="...">` child directive is read into its two
attributes.  The compile loop either encodes it onto the parent as
`data-binding-<target>` = key and removes the directive element, or — in the
branch for a missing/empty `key` or `target` — executes `trigEl.remove()`
where no variable `trigEl` is in scope, raising a `ReferenceError` that aborts
the rest of the element's compile pass. -/

/-- The two attributes read off a `<data-binding>` directive element
(`getAttribute` yields `none` for an absent attribute). -/
structure RawBinding where
  key : Option String
  target : Option String
deriving Repr, DecidableEq

/-- Result of `applyDataBindingsToElement`: either a normal return with the
parent's final attributes and the directive elements removed along the way, or
a thrown `ReferenceError` (`trigEl is not defined`) with the attributes and
removals performed before the throw. -/
inductive CompileOut where
  | ok (attrs : List (String × String)) (removed : List RawBinding)
  | refError (attrs : List (String × String)) (removed : List RawBinding)
deriving Repr, DecidableEq

/-- `applyDataBindingsToElement(parent, bindings)` from `src/frontend.js`
(lines 833-857), folded over the directive list with the parent's attribute
map as state. -/
def applyDataBindingsToElement (attrs : List (String × String)) (removed : List RawBinding) :
    List RawBinding → CompileOut
  | [] => .ok attrs removed
  | b :: rest =>
    match b.key, b.target with
    | some k, some t =>
      if k = "" || t = "" then .refError attrs removed
      else applyDataBindingsToElement (objSet attrs ("data-binding-" ++ t) k) (removed ++ [b]) rest
    | _, _ => .refError attrs removed

/-! ## Dispatcher binding-channel update (`updateDataBindings`, `applyDataBinding`) -/

/-- The document-side state of one element that the render channels touch. -/
structure DElem where
  attrs : List (String × String)
  textContent : String
  innerHTML : String
  value : String
  className : String
  styles : List (String × String)
  display : String
deriving Repr, DecidableEq

/-- Assignment coercion for `value ?? ""` followed by a string property set:
`undefined`/`null` give the empty string, anything else its JS string form. -/
def coalesceStr (v : Option Value) : String :=
  match v with
  | none => ""
  | some .vNull => ""
  | some w => jsToString w

/-- `Array.prototype.join(sep)`: `null` elements render empty. -/
def jsArrJoin (sep : String) : List Value → String
  | [] => ""
  | [v] => jsElemString v
  | v :: rest => jsElemString v ++ sep ++ jsArrJoin sep rest

/-- `applyDataBinding(el, targetPath, value)` from `src/frontend.js`
(lines 1474-1526): destructure `[main, ...rest]` and switch on the channel. -/
def applyDataBinding (el : DElem) (targetPath : List String) (value : Option Value) : DElem :=
  match targetPath with
  | [] => el
  | main :: rest =>
    if main = "text" then { el with textContent := coalesceStr value }
    else if main = "html" then { el with innerHTML := coalesceStr value }
    else if main = "value" then { el with value := coalesceStr value }
    else if main = "class" then
      { el with className :=
          match value with
          | some (.vArr es) => jsArrJoin " " es
          | v => coalesceStr v }
    else if main = "visible" then
      { el with display := if jsTruthy value then "" else "none" }
    else if main = "style" then
      if rest.isEmpty then el
      else { el with styles := objSet el.styles (String.intercalate "-" rest) (coalesceStr value) }
    else if main = "attr" then
      if rest.isEmpty then el
      else
        let name := String.intercalate "-" rest
        match value with
        | none => { el with attrs := objDel el.attrs name }
        | some .vNull => { el with attrs := objDel el.attrs name }
        | some (.vBool false) => { el with attrs := objDel el.attrs name }
        | some v => { el with attrs := objSet el.attrs name (jsToString v) }
    else
      let name := String.intercalate "-" targetPath
      match value with
      | none => { el with attrs := objDel el.attrs name }
      | some .vNull => { el with attrs := objDel el.attrs name }
      | some (.vBool false) => { el with attrs := objDel el.attrs name }
      | some v => { el with attrs := objSet el.attrs name (jsToString v) }

/-- The attribute scan of `updateDataBindings` (lines 1448-1464) on one
element: keep attributes whose name starts with `data-bind-` and whose value
equals the changed key, and decode each channel as
`attr.name.split("-").slice(2)`. -/
def bindingChannelsFor (attrs : List (String × String)) (key : String) : List (List String) :=
  attrs.filterMap (fun a =>
    if strStartsWith a.1 "data-bind-" then
      if a.2 = key then some ((splitDashes a.1).drop 2) else none
    else none)

/-- Apply every matching binding channel of one element, in attribute order. -/
def updateElement (el : DElem) (key : String) (value : Option Value) : DElem :=
  (bindingChannelsFor el.attrs key).foldl (fun e ch => applyDataBinding e ch value) el

/-- `updateDataBindings(key, value)`: update every element of the document
carrying a matching binding attribute. -/
def updateDataBindings (doc : List DElem) (key : String) (value : Option Value) : List DElem :=
  doc.map (fun el => updateElement el key value)

/-! ## Registry (templates and behaviors)

Templates collect into the single global `<templates id="templates">`
container; the entry list below is that container's children in document
order, keyed by each element's raw `id` with its `innerHTML` as payload. -/

/-- The global template container plus the console diagnostics emitted so far. -/
structure TmplReg where
  entries : List (String × String)
  diags : List String
deriving Repr, DecidableEq

/-- The per-template body of the `loadTemplates` loop (lines 331-351):
`id = tmpl.id?.trim()`; skip without id; look the trimmed id up among the
container's children; on a duplicate warn only when the markup differs and
keep the first; otherwise append (under the raw id, which is what the element
carries into the container). -/
def registerTemplateInline (reg : TmplReg) (rawId : Option String) (markup : String) : TmplReg :=
  match rawId with
  | none => { reg with diags := reg.diags ++ ["Ignored <template> without id"] }
  | some r =>
    if jsTrim r = "" then { reg with diags := reg.diags ++ ["Ignored <template> without id"] }
    else
      match lookupA reg.entries (jsTrim r) with
      | some existing =>
        if existing ≠ markup then
          { reg with diags := reg.diags ++
              ["Duplicate template id \"" ++ jsTrim r ++ "\" detected — kept first, ignored new one."] }
        else reg
      | none => { reg with entries := reg.entries ++ [(r, markup)] }

/-- `moveTemplateToGlobal(tmpl, templatesRoot)` (lines 1195-1209): skip
without id with a warning, skip any duplicate id with a warning, else append.
Its only live caller would be `normalizeTemplatesContainers`, which nothing
invokes; the linked-pack call site never reaches it (see
`loadTemplatePackLink`). -/
def moveTemplateToGlobal (reg : TmplReg) (rawId : Option String) (markup : String) : TmplReg :=
  match rawId with
  | none => { reg with diags := reg.diags ++ ["Ignored <template> without id in fragment."] }
  | some r =>
    if r = "" then { reg with diags := reg.diags ++ ["Ignored <template> without id in fragment."] }
    else
      match lookupA reg.entries r with
      | some _ =>
        { reg with diags := reg.diags ++
            ["Duplicate template id \"" ++ r ++ "\" in fragment — skipped"] }
      | none => { reg with entries := reg.entries ++ [(r, markup)] }

/-- The per-link body of `loadTemplateLinks` (lines 270-305) after a
successful fetch and parse, given the pack's `<template id=...>` declarations.
A pack with no templates warns and continues.  Otherwise the loop calls
`moveTemplateToGlobal(tmpl, mainContainer)` (line 295), where no variable
`mainContainer` is declared anywhere in the program: the first iteration
throws a `ReferenceError`, the per-link `catch` (line 302) logs it, and the
registry is left untouched — no linked-pack template is ever registered. -/
def loadTemplatePackLink (reg : TmplReg) (src : String)
    (tmpls : List (Option String × String)) : TmplReg :=
  if tmpls.isEmpty then
    { reg with diags := reg.diags ++ ["No <template id=\"...\"> found in " ++ src] }
  else
    { reg with diags := reg.diags ++ ["Failed to load templates from " ++ src] }

/-- The attributes of a `<trigger>` directive element, as `getTriggerData`
reads them. -/
structure TrigAttrs where
  onName : Option String
  key : Option String
  target : Option String
  condition : Option String
  action : Option String
  once : Bool
  prevent : Bool
  stop : Bool
deriving Repr, DecidableEq

/-- A normalized trigger context, the successful result of `getTriggerData`.
The `onName` field is the JS `on` field (a reserved word here). -/
structure TrigData where
  onName : String
  key : Option String
  target : Option String
  condition : Option String
  action : String
  once : Bool
  prevent : Bool
  stop : Bool
deriving Repr, DecidableEq

/-- Normalize `x || null`: the empty string collapses to `null`. -/
def orNull (o : Option String) : Option String :=
  if jsFalsyS o then none else o

/-- `getTriggerData(el)` (lines 538-574): require non-falsy `on` and `action`,
otherwise warn and return `null`. -/
def getTriggerData (a : TrigAttrs) : Option TrigData :=
  if jsFalsyS a.onName || jsFalsyS a.action then none
  else
    match a.onName, a.action with
    | some onv, some act =>
      some ⟨onv, orNull a.key, orNull a.target, orNull a.condition, act, a.once, a.prevent, a.stop⟩
    | _, _ => none

/-- The behavior registry `Frontend._behaviors` plus emitted diagnostics.
An entry's payload is `findChildTriggers(bEl).map(getTriggerData)`, so failed
trigger parses stay in the list as `none`. -/
structure BehReg where
  entries : List (String × List (Option TrigData))
  diags : List String
deriving Repr, DecidableEq

/-- `registerBehaviorElement(bEl, source)` (lines 591-621): trim the id, skip
without id; skip duplicates with a warning; extract the triggers and skip with
a warning when there are none; else register. -/
def registerBehaviorElement (reg : BehReg) (rawId : Option String)
    (triggers : List TrigAttrs) : BehReg :=
  match rawId with
  | none => { reg with diags := reg.diags ++ ["Ignored <behavior> without id"] }
  | some r =>
    if jsTrim r = "" then { reg with diags := reg.diags ++ ["Ignored <behavior> without id"] }
    else
      let id := jsTrim r
      if (lookupA reg.entries id).isSome then
        { reg with diags := reg.diags ++
            ["Duplicate behavior id \"" ++ id ++ "\" encountered — skipped"] }
      else
        let ts := triggers.map getTriggerData
        if ts.isEmpty then
          { reg with diags := reg.diags ++ ["Behavior \"" ++ id ++ "\" has no triggers — skipped"] }
        else { reg with entries := reg.entries ++ [(id, ts)] }

/-- Run a sequence of behavior registrations from a given registry. -/
def runBehaviorsFrom (reg : BehReg) (ops : List (Option String × List TrigAttrs)) : BehReg :=
  ops.foldl (fun r op => registerBehaviorElement r op.1 op.2) reg

/-- Run a sequence of behavior registrations from the empty registry. -/
def runBehaviors (ops : List (Option String × List TrigAttrs)) : BehReg :=
  runBehaviorsFrom ⟨[], []⟩ ops

/-! ## Fragment loader (`resolveFragmentSource`, `loadFragment`, `loadFragments`)

The DOM, the network and dynamic-`Function` condition evaluation enter as
oracles in an `Env`.  `loadFragment`'s recursion into nested fragments is
bounded by explicit fuel (the JS recursion is bounded by nesting depth). -/

/-- The fragment context built by `getFragmentData(el)` (lines 496-515).
`params` stands for the `collectParams` result (the `param-*` attributes plus
the `frag_id`/`frag_src` builtins); `inlineContent` is `el.innerHTML`. -/
structure Frag where
  id : Option String
  src : Option String
  condition : Option String
  fallback : Option String
  inlineContent : String
  params : List (String × String)
deriving Repr, DecidableEq

/-- External collaborators of the loader.  `condEval c = none` models a
condition expression that throws; `some b` its truthiness.  `fetch` models
`fetchFragment`'s whole fetch: `none` for a network error or non-OK status.
`render` is the pluggable markdown processor (its internal catch included).
`parse` yields the nested `<fragment>` elements found in parsed markup, in
document order. -/
structure Env where
  condEval : String → Option Bool
  fetch : Option String → Option String
  render : String → String
  store : State
  parse : String → List Frag

/-- `resolveFragmentSource(fragData)` from `src/frontend.js` (lines 912-942):
no condition (or an empty, hence falsy, one) yields `src`; a truthy condition
yields `src`; a falsy or throwing condition yields `fallback` when present;
otherwise `null`. -/
def resolveFragmentSource (env : Env) (frag : Frag) : Option String :=
  match frag.condition with
  | none => frag.src
  | some c =>
    if c = "" then frag.src
    else
      match env.condEval c with
      | some true => frag.src
      | _ =>
        match frag.fallback with
        | some fb => if fb = "" then none else some fb
        | none => none

/-- What ends up in place of the `<fragment>` placeholder element. -/
inductive Replacement where
  | content (html : String)
  | removed
deriving Repr, DecidableEq

/-- `useInlineFallback(frag)` (lines 976-993): replace the element with its
trimmed inline content when non-empty, otherwise remove it. -/
def useInlineFallback (frag : Frag) : Replacement :=
  if jsTrim frag.inlineContent = "" then .removed else .content (jsTrim frag.inlineContent)

/-- A JS number as the loader's counters see it: a natural count or `NaN`. -/
inductive JsNum where
  | num (n : Nat)
  | nan
deriving Repr, DecidableEq

/-- `loadedCount += await loadFragment(...)`: adding an `undefined` return
value (`none`) or `NaN` to a number yields `NaN`. -/
def jsAddRet : JsNum → Option JsNum → JsNum
  | .num a, some (.num b) => .num (a + b)
  | _, _ => .nan

/-- The observable outcome of one `loadFragment(element)` call: the arguments
passed to `fetch` (in order, nested calls included), the `fragment:loaded`
events dispatched (id and the `src` field of the detail, in order), what
replaced the placeholder, and the JS return value (`none` = `undefined`, from
the bare `return;` statements). -/
structure LoadRes where
  fetched : List (Option String)
  events : List (Option String × String)
  repl : Replacement
  ret : Option JsNum
deriving Repr, DecidableEq

/-- `const src = currentFrag.src?.toLowerCase() || ""`. -/
def lowerSrc (frag : Frag) : String :=
  match frag.src with
  | some s => jsToLower s
  | none => ""

/-- The structured-text extension test of `loadFragment`, applied to the
lowercased source. -/
def isMdSrc (s : String) : Bool :=
  strEndsWith s ".md" || strEndsWith s ".markdown" || strEndsWith s ".mkd"

/-- `loadFragment(element)` from `src/frontend.js` (lines 156-238), with fuel
bounding the recursion into nested fragments.  Key transcription points:
a falsy resolved source or a failed/empty fetch takes the inline-fallback path
and executes a bare `return;` (an `undefined` return value); the fetch is
`fetch(frag.src)` — `fetchFragment` never looks at the resolved source; the
markdown branch dispatches `fragment:loaded` with the lowercased `src` and
does not recurse, while the markup branch dispatches with the resolved source
and then recurses into nested fragments, accumulating `loadedCount` with JS
`+=` semantics. -/
def loadFragment (env : Env) : Nat → Frag → LoadRes
  | 0, _ => ⟨[], [], .removed, none⟩
  | fuel + 1, frag =>
    match resolveFragmentSource env frag with
    | none => ⟨[], [], useInlineFallback frag, none⟩
    | some ts =>
      if ts = "" then ⟨[], [], useInlineFallback frag, none⟩
      else
        match env.fetch frag.src with
        | none => ⟨[frag.src], [], useInlineFallback frag, none⟩
        | some raw =>
          if raw = "" then ⟨[frag.src], [], useInlineFallback frag, none⟩
          else
            if isMdSrc (lowerSrc frag) then
              let html := env.render raw
              let substituted := substituteParams frag.params env.store html
              ⟨[frag.src], [(frag.id, lowerSrc frag)], .content substituted, some (.num 1)⟩
            else
              let substituted := substituteParams frag.params env.store raw
              let nested := env.parse substituted
              let rs := nested.map (loadFragment env fuel)
              ⟨[frag.src] ++ (rs.map (·.fetched)).flatten,
               [(frag.id, ts)] ++ (rs.map (·.events)).flatten,
               .content substituted,
               some (rs.foldl (fun acc r => jsAddRet acc r.ret) (.num 1))⟩

/-- `loadFragments(root)` (lines 245-259) restricted to its counting behavior:
fold `loadedCount += await loadFragment(fragEl)` over the root's fragment
placeholders (the `fragment[src]` query result, `<code>` descendants already
filtered out).  The result is the count that `initialize` puts into the
`page:load_complete` event detail. -/
def loadFragmentsCount (env : Env) (fuel : Nat) (frags : List Frag) : JsNum :=
  frags.foldl (fun acc f => jsAddRet acc (loadFragment env fuel f).ret) (.num 0)

/-! ## Derived notions and concrete fixtures used by the theorems -/

/-- A non-null object or array, the values whose writes fan out per child. -/
def isContainer : Value → Bool
  | .vObj _ => true
  | .vArr _ => true
  | _ => false

/-- Fixture for C8: a `<trigger on="click" action="go()">` attribute set. -/
def trigC8a : TrigAttrs := ⟨some "click", none, none, none, some "go()", false, false, false⟩

/-- Fixture for C8: a `<trigger on="keyup" action="stop()">` attribute set. -/
def trigC8b : TrigAttrs := ⟨some "keyup", none, none, none, some "stop()", false, false, false⟩

/-- A document element with no attributes and empty rendered state. -/
def blankElem : DElem := ⟨[], "", "", "", "", [], ""⟩

/-- Fixture for C4: a fragment whose condition evaluates false and which
names a fallback source. -/
def fragC4 : Frag := ⟨none, some "a.html", some "cond", some "b.html", "", []⟩

/-- Fixture environment for C4: the condition is falsy, and the network
serves distinct bodies for the primary and fallback sources. -/
def envC4 : Env :=
  ⟨fun c => if c = "cond" then some false else none,
   fun s =>
     if s = some "a.html" then some "<p>A</p>"
     else if s = some "b.html" then some "<p>B</p>" else none,
   fun r => r, [], fun _ => []⟩

/-- Fixture for C5: an unconditional structured-text fragment whose source
has an uppercase letter. -/
def fragC5 : Frag := ⟨some "n1", some "Notes.md", none, none, "", []⟩

/-- Fixture environment for C5: the fetch succeeds with plain text. -/
def envC5 : Env :=
  ⟨fun _ => none,
   fun s => if s = some "Notes.md" then some "hello" else none,
   fun r => r, [], fun _ => []⟩

/-- Fixture for C6: an ordinary fragment placeholder. -/
def fragC6 : Frag := ⟨none, some "a.html", none, none, "", []⟩

/-- Fixture environment for C6: every fetch fails, so the fragment takes the
inline-fallback path. -/
def envC6 : Env := ⟨fun _ => none, fun _ => none, fun r => r, [], fun _ => []⟩

/-- Fixture environment for the C5 witness: a markup source served
successfully. -/
def envC5w : Env :=
  ⟨fun _ => none,
   fun s => if s = some "card.html" then some "<div>hi</div>" else none,
   fun r => r, [], fun _ => []⟩

/-- Fixture for the C5 witness. -/
def fragC5w : Frag := ⟨some "w1", some "card.html", none, none, "", []⟩

/-! ## Helper lemmas -/

theorem lookupA_objSet_self {α : Type} (l : List (String × α)) (k : String) (v : α) :
    lookupA (objSet l k v) k = some v := by
  induction l with
  | nil => simp [objSet, lookupA]
  | cons p rest ih =>
    by_cases h : p.1 = k
    · simp [objSet, lookupA, h]
    · simp [objSet, lookupA, h, ih]

theorem lookupA_objDel_self {α : Type} (l : List (String × α)) (k : String) :
    lookupA (objDel l k) k = none := by
  induction l with
  | nil => simp [objDel, lookupA]
  | cons p rest ih =>
    by_cases h : p.1 = k
    · simp [objDel, h, ih]
    · simp [objDel, lookupA, h, ih]

theorem takeWhile_all_cons_neg {p : Char → Bool} :
    ∀ (xs : List Char) (y : Char) (ys : List Char),
      (∀ c ∈ xs, p c = true) → p y = false →
      (xs ++ y :: ys).takeWhile p = xs := by
  intro xs y ys hall hy
  induction xs with
  | nil => simp [List.takeWhile, hy]
  | cons c cs ih =>
    have hc : p c = true := hall c (by simp)
    have ihh := ih (fun d hd => hall d (by simp [hd]))
    simp [List.takeWhile, hc, ihh]

theorem dropWhile_all_cons_neg {p : Char → Bool} :
    ∀ (xs : List Char) (y : Char) (ys : List Char),
      (∀ c ∈ xs, p c = true) → p y = false →
      (xs ++ y :: ys).dropWhile p = y :: ys := by
  intro xs y ys hall hy
  induction xs with
  | nil => simp [List.dropWhile, hy]
  | cons c cs ih =>
    have hc : p c = true := hall c (by simp)
    have ihh := ih (fun d hd => hall d (by simp [hd]))
    simp [List.dropWhile, hc, ihh]

theorem tokenChar_not_space {c : Char} (h : isTokenChar c = true) : isJsSpace c = false := by
  by_contra hn
  have hs : isJsSpace c = true := by
    cases hx : isJsSpace c
    · exact absurd hx hn
    · rfl
  simp only [isJsSpace, Bool.or_eq_true, decide_eq_true_eq] at hs
  rcases hs with ((((h1 | h1) | h1) | h1) | h1) | h1 <;> subst h1 <;> simp [isTokenChar] at h

theorem splitCharList_ne_nil (sep : Char) (cs : List Char) : splitCharList sep cs ≠ [] := by
  cases cs with
  | nil => simp [splitCharList]
  | cons c cs' =>
    by_cases h : c = sep
    · simp [splitCharList, h]
    · simp only [splitCharList, h, if_false]
      cases hs : splitCharList sep cs' <;> simp

theorem getStep_none (k : String) : getStep none k = none := rfl

theorem foldl_getStep_none (gs : List String) : gs.foldl getStep none = none := by
  induction gs with
  | nil => rfl
  | cons g gs ih => simpa [getStep_none] using ih

theorem setGo_of_missing (path : String) (v : Option Value) :
    ∀ (ks : List String) (obj : Value),
      missingIntermediate obj ks = true → setGo path v obj ks = (obj, .abortMissing) := by
  intro ks
  induction ks with
  | nil => intro obj h; simp [missingIntermediate] at h
  | cons k rest ih =>
    intro obj h
    cases rest with
    | nil => simp [missingIntermediate] at h
    | cons k' rest' =>
      simp only [missingIntermediate] at h
      cases hji : jsIn k obj with
      | none => rw [hji] at h; simp at h
      | some b =>
        rw [hji] at h
        cases b with
        | false => simp [setGo, hji]
        | true =>
          simp only at h
          cases hidx : jsIndex obj k with
          | none => rw [hidx] at h; simp at h
          | some child =>
            rw [hidx] at h
            simp only at h
            have hrec := ih child h
            simp [setGo, hji, hidx, hrec]

/-! ## Claim theorems -/

/-- Claim C2.  For every `set(path, value)` call where some intermediate
segment of the path is absent from its (container) parent, the write aborts
with the diagnostic path (`console.error` then `return`): the state tree is
returned completely unchanged and the outcome carries no change notification
of any type (`SetOutcome.abortMissing` holds no events, and no
`dispatchDataEvent` call is reached on that path). -/
theorem c2_missing_intermediate_aborts (st : State) (path : String) (v : Option Value)
    (h : missingIntermediate (.vObj st) (splitDots path) = true) :
    setData st path v = (st, .abortMissing) := by
  unfold setData
  rw [setGo_of_missing path v _ _ h]

/-- Witness for C2: from the empty state, `set("a.b", 5)` hits the missing
intermediate container `a` and aborts with the state unchanged. -/
theorem c2_witness :
    missingIntermediate (.vObj []) (splitDots "a.b") = true
    ∧ setData [] "a.b" (some (.vNum 5)) = ([], .abortMissing) :=
  ⟨rfl, c2_missing_intermediate_aborts [] "a.b" (some (.vNum 5)) rfl⟩

/-- Claim C1 (code bug).  The directive compiler encodes a
`<data-binding key="user.name" target="text">` child onto its parent as the
attribute `data-binding-text="user.name"`, but the dispatcher's
binding-channel update only queries attributes whose name starts with
`data-bind-`; the compiled attribute never matches, so a subsequent
`set("user.name", "Bob")` leaves the element's text content unchanged instead
of updating it — the attribute the compiler writes is NOT the attribute the
dispatcher queries. -/
theorem c1_compiled_binding_never_updates :
    applyDataBindingsToElement [] [] [⟨some "user.name", some "text"⟩]
      = .ok [("data-binding-text", "user.name")] [⟨some "user.name", some "text"⟩]
    ∧ strStartsWith "data-binding-text" "data-bind-" = false
    ∧ bindingChannelsFor [("data-binding-text", "user.name")] "user.name" = []
    ∧ updateElement { blankElem with attrs := [("data-binding-text", "user.name")] }
        "user.name" (some (.vStr "Bob"))
        = { blankElem with attrs := [("data-binding-text", "user.name")] } :=
  ⟨rfl, rfl, rfl, rfl⟩

/-- Claim C3 as amended.  The `set`/`get` round trip requires the parent
container of the written path to already exist as an object (the engine's
write policy hard-fails on missing intermediates, so the claim's "including
the empty state" is false — see the counterexample): whenever the top-level
key `a` holds an object, `set("a.b", 5)` followed by `get("a.b")` returns `5`.
The other two parts hold from every state: `remove("a.b")` followed by
`get("a.b")` returns `undefined`, and after `reset()` every `get` returns
`undefined`. -/
theorem c3_amended :
    (∀ (st : State) (o : List (String × Value)),
        lookupA st "a" = some (.vObj o) →
        getData (setData st "a.b" (some (.vNum 5))).1 "a.b" = some (.vNum 5))
    ∧ (∀ st : State, getData (removeData st "a.b").1 "a.b" = none)
    ∧ (∀ (st : State) (p : String), getData (resetState st).1 p = none) := by
  have hsplit : splitDots "a.b" = ["a", "b"] := rfl
  refine ⟨?_, ?_, ?_⟩
  · intro st o h
    have hin : jsIn "a" (.vObj st) = some true := by simp [jsIn, h]
    simp [setData, hsplit, setGo, hin, jsIn, jsIndex, h, jsSetProp, getData, getStep,
      lookupA_objSet_self]
  · intro st
    have hbl : ("b" = "length") = False := by simp
    have hci : canonIndex "b" = none := rfl
    cases hc : lookupA st "a" with
    | none =>
      have hin : jsIn "a" (.vObj st) = some false := by simp [jsIn, hc]
      simp [removeData, hsplit, removeGo, hin, getData, getStep, jsIndex, hc,
        foldl_getStep_none]
    | some c =>
      have hin : jsIn "a" (.vObj st) = some true := by simp [jsIn, hc]
      cases c with
      | vObj o =>
        cases hb : lookupA o "b" with
        | none =>
          have hinb : jsIn "b" (.vObj o) = some false := by simp [jsIn, hb]
          simp [removeData, hsplit, removeGo, hin, hinb, jsIndex, hc, hb, jsSetProp,
            getData, getStep, lookupA_objSet_self]
        | some w =>
          have hinb : jsIn "b" (.vObj o) = some true := by simp [jsIn, hb]
          simp [removeData, hsplit, removeGo, hin, hinb, jsIndex, hc, jsSetProp,
            jsDelProp, getData, getStep, lookupA_objSet_self, lookupA_objDel_self]
      | vArr es =>
        have hinb : jsIn "b" (.vArr es) = some false := by simp [jsIn, hbl, hci]
        simp [removeData, hsplit, removeGo, hin, hinb, jsIndex, hc, hci, hbl, jsSetProp,
          getData, getStep, lookupA_objSet_self]
      | vStr s =>
        simp [removeData, hsplit, removeGo, hin, jsIn, jsIndex, hc, getData, getStep]
      | vNum n =>
        simp [removeData, hsplit, removeGo, hin, jsIn, jsIndex, hc, getData, getStep]
      | vBool b =>
        simp [removeData, hsplit, removeGo, hin, jsIn, jsIndex, hc, getData, getStep]
      | vNull =>
        simp [removeData, hsplit, removeGo, hin, jsIn, jsIndex, hc, getData, getStep]
  · intro st p
    have h1 : (resetState st).1 = [] := rfl
    rw [h1]
    have hne : splitDots p ≠ [] := by
      unfold splitDots
      simp only [ne_eq, List.map_eq_nil_iff]
      exact splitCharList_ne_nil '.' p.data
    obtain ⟨g, gs, hgs⟩ := List.exists_cons_of_ne_nil hne
    unfold getData
    rw [hgs]
    simp [getStep, jsIndex, lookupA, foldl_getStep_none]

/-- Witness for C3 as amended, at the state where `a` holds the empty object:
the set/get round trip yields `5`, remove-then-get yields `undefined`, and
after reset every previously set path reads `undefined`. -/
theorem c3_witness :
    getData (setData [("a", .vObj [])] "a.b" (some (.vNum 5))).1 "a.b" = some (.vNum 5)
    ∧ getData (removeData [("a", .vObj [("b", .vNum 7)])] "a.b").1 "a.b" = none
    ∧ getData (resetState [("a", .vObj [("b", .vNum 7)])]).1 "a.b" = none :=
  ⟨c3_amended.1 [("a", .vObj [])] [] rfl,
   c3_amended.2.1 [("a", .vObj [("b", .vNum 7)])],
   c3_amended.2.2 [("a", .vObj [("b", .vNum 7)])] "a.b"⟩

/-- Claim C3, counterexample.  Starting from the empty store state,
`set("a.b", 5)` does not make `get("a.b")` return `5`: the write aborts on the
missing intermediate container `a`, the state stays empty and the read yields
`undefined`. -/
theorem c3_counterexample :
    (setData [] "a.b" (some (.vNum 5))).1 = []
    ∧ getData (setData [] "a.b" (some (.vNum 5))).1 "a.b" = none
    ∧ getData (setData [] "a.b" (some (.vNum 5))).1 "a.b" ≠ some (.vNum 5) :=
  ⟨rfl, rfl, fun h => Option.noConfusion h⟩

/-- Claim C4 (code bug).  For a fragment with `src="a.html"`, a falsy
condition and `fallback="b.html"`, source resolution does select the fallback
`b.html`, but the fetch step calls `fetch(frag.src)` and so fetches `a.html`;
the content that replaces the placeholder is `a.html`'s body, not the
fallback's — contradicting both the claim and the engine's own documentation
of `fallback`. -/
theorem c4_fallback_resolved_but_not_fetched :
    resolveFragmentSource envC4 fragC4 = some "b.html"
    ∧ (loadFragment envC4 1 fragC4).fetched = [some "a.html"]
    ∧ (loadFragment envC4 1 fragC4).repl = .content "<p>A</p>"
    ∧ (loadFragment envC4 1 fragC4).repl ≠ .content "<p>B</p>" :=
  ⟨rfl, rfl, rfl, by decide⟩

/-- Claim C5, counterexample.  For the structured-text fragment
`src="Notes.md"` the resolved source is `Notes.md`, but the single
`fragment:loaded` event carries the lowercased string `notes.md` in its
detail — not the src string actually selected by source resolution. -/
theorem c5_counterexample :
    resolveFragmentSource envC5 fragC5 = some "Notes.md"
    ∧ (loadFragment envC5 1 fragC5).events = [(some "n1", "notes.md")]
    ∧ "notes.md" ≠ "Notes.md" :=
  ⟨rfl, rfl, by decide⟩

/-- Claim C6 (code bug).  When a fragment takes the inline-fallback path
(here: its fetch fails), `loadFragment` exits through a bare `return;` and
returns `undefined`; the driver's `loadedCount += undefined` then turns the
page-level count into `NaN`, so the `page:load_complete` detail does not carry
the well-defined number of successfully resolved fragments (which is `0`
here). -/
theorem c6_fallback_makes_count_nan :
    (loadFragment envC6 1 fragC6).ret = none
    ∧ loadFragmentsCount envC6 1 [fragC6] = JsNum.nan
    ∧ loadFragmentsCount envC6 1 [fragC6] ≠ JsNum.num 0 :=
  ⟨rfl, rfl, by decide⟩

/-- Claim C7 (code bug).  A `<data-binding>` directive missing its `key`
executes `trigEl.remove()` where no `trigEl` is in scope: the compile pass
for the element throws a `ReferenceError` instead of logging a diagnostic.
The malformed directive is not removed, and the element's well-formed sibling
directive that follows it is never compiled (no attribute from it appears). -/
theorem c7_malformed_binding_throws :
    applyDataBindingsToElement [] []
        [⟨none, some "text"⟩, ⟨some "user.name", some "text"⟩]
      = .refError [] [] :=
  rfl

/-- Claim C10.  For every `set(path, v)` call that returns normally with
events (`SetOutcome.ok`) where `v` is a non-null object or array, the
dispatched notifications are exactly: one `added`-or-`changed` notification
for `path` carrying `v`, followed by one extra `added` notification per
immediate key `k` of `v` at path `path.k` — each extra notification carrying
the WHOLE parent value `v` (not `v[k]`) and an `undefined` old value, with no
deeper recursion. -/
theorem c10_container_set_fanout (st st' : State) (path : String) (v : Value) (evs : List Ev)
    (hv : isContainer v = true)
    (h : setData st path (some v) = (st', .ok evs)) :
    ∃ t old, (t = EvType.added ∨ t = EvType.changed) ∧
      evs = ⟨t, path, some v, old⟩ ::
        (childKeys v).map (fun k => ⟨EvType.added, path ++ "." ++ k, some v, none⟩) := by
  have main : ∀ (ks : List String) (obj obj' : Value) (evs' : List Ev),
      setGo path (some v) obj ks = (obj', .ok evs') →
      ∃ t old, (t = EvType.added ∨ t = EvType.changed) ∧
        evs' = ⟨t, path, some v, old⟩ :: fanoutEvents path v := by
    intro ks
    induction ks with
    | nil => intro obj obj' evs' hgo; simp [setGo] at hgo
    | cons k rest ih =>
      cases rest with
      | nil =>
        intro obj obj' evs' hgo
        simp only [setGo] at hgo
        cases hji : jsIn k obj with
        | none => rw [hji] at hgo; simp at hgo
        | some existed =>
          rw [hji] at hgo
          cases v with
          | vObj fs =>
            have h2 := congrArg Prod.snd hgo
            cases existed with
            | false =>
              simp only [SetOutcome.ok.injEq] at h2
              refine ⟨.added, jsIndex obj k, Or.inl rfl, ?_⟩
              simpa using h2.symm
            | true =>
              simp only [SetOutcome.ok.injEq] at h2
              refine ⟨.changed, jsIndex obj k, Or.inr rfl, ?_⟩
              simpa using h2.symm
          | vArr es =>
            have h2 := congrArg Prod.snd hgo
            cases existed with
            | false =>
              simp only [SetOutcome.ok.injEq] at h2
              refine ⟨.added, jsIndex obj k, Or.inl rfl, ?_⟩
              simpa using h2.symm
            | true =>
              simp only [SetOutcome.ok.injEq] at h2
              refine ⟨.changed, jsIndex obj k, Or.inr rfl, ?_⟩
              simpa using h2.symm
          | vStr s => simp [isContainer] at hv
          | vNum n => simp [isContainer] at hv
          | vBool b => simp [isContainer] at hv
          | vNull => simp [isContainer] at hv
      | cons k' rest' =>
        intro obj obj' evs' hgo
        simp only [setGo] at hgo
        cases hji : jsIn k obj with
        | none => rw [hji] at hgo; simp at hgo
        | some b =>
          rw [hji] at hgo
          cases b with
          | false => simp at hgo
          | true =>
            simp only at hgo
            cases hidx : jsIndex obj k with
            | none => rw [hidx] at hgo; simp at hgo
            | some child =>
              rw [hidx] at hgo
              simp only at hgo
              cases hrec : setGo path (some v) child (k' :: rest') with
              | mk child' out =>
                rw [hrec] at hgo
                cases out with
                | ok evs2 =>
                  have h2 := congrArg Prod.snd hgo
                  simp only [SetOutcome.ok.injEq] at h2
                  subst h2
                  exact ih child child' _ hrec
                | abortMissing => simp at hgo
                | warnRemoveMissing => simp at hgo
                | typeError => simp at hgo
  unfold setData at h
  cases hgo : setGo path (some v) (.vObj st) (splitDots path) with
  | mk w out =>
    rw [hgo] at h
    have hout : out = .ok evs := by
      cases w <;> simp_all
    subst hout
    have := main (splitDots path) (.vObj st) w evs hgo
    simpa [fanoutEvents] using this

/-- Witness for C10: setting `a.b` to the object with keys `x` and `y` (the
parent `a` existing) dispatches the main `added` for `a.b` and one `added`
per immediate key, each carrying the whole parent object and an `undefined`
old value. -/
theorem c10_witness :
    ∃ t old, (t = EvType.added ∨ t = EvType.changed) ∧
      ([⟨EvType.added, "a.b", some (.vObj [("x", .vNum 1), ("y", .vStr "z")]), none⟩,
        ⟨EvType.added, "a.b.x", some (.vObj [("x", .vNum 1), ("y", .vStr "z")]), none⟩,
        ⟨EvType.added, "a.b.y", some (.vObj [("x", .vNum 1), ("y", .vStr "z")]), none⟩] : List Ev)
      = ⟨t, "a.b", some (.vObj [("x", .vNum 1), ("y", .vStr "z")]), old⟩ ::
          (childKeys (.vObj [("x", .vNum 1), ("y", .vStr "z")])).map
            (fun k => ⟨EvType.added, "a.b" ++ "." ++ k,
                       some (.vObj [("x", .vNum 1), ("y", .vStr "z")]), none⟩) :=
  c10_container_set_fanout [("a", .vObj [])]
    [("a", .vObj [("b", .vObj [("x", .vNum 1), ("y", .vStr "z")])])]
    "a.b" (.vObj [("x", .vNum 1), ("y", .vStr "z")]) _ rfl rfl

theorem scanSubst_nil (params : List (String × String)) (st : State) :
    ∀ fuel, scanSubst params st fuel [] = []
  | 0 => rfl
  | _ + 1 => rfl

theorem strMk_data (s : String) : String.mk s.data = s := rfl

theorem matchToken_exact (d : List Char) (hd : d ≠ [])
    (hch : ∀ c ∈ d, isTokenChar c = true) :
    matchToken ('\x7b' :: '\x7b' :: (d ++ ['\x7d', '\x7d'])) =
      some (String.mk d, '\x7b' :: '\x7b' :: (d ++ ['\x7d', '\x7d']), []) := by
  obtain ⟨c0, cs, rfl⟩ := List.exists_cons_of_ne_nil hd
  have hsp : isJsSpace c0 = false := tokenChar_not_space (hch c0 (by simp))
  have htok : isTokenChar c0 = true := hch c0 (by simp)
  have h3 : List.takeWhile isTokenChar (cs ++ ['\x7d', '\x7d']) = cs :=
    takeWhile_all_cons_neg cs '\x7d' ['\x7d'] (fun c hc => hch c (by simp [hc])) (by decide)
  have h4 : List.dropWhile isTokenChar (cs ++ ['\x7d', '\x7d']) = ['\x7d', '\x7d'] :=
    dropWhile_all_cons_neg cs '\x7d' ['\x7d'] (fun c hc => hch c (by simp [hc])) (by decide)
  have hw1 : List.takeWhile isJsSpace (c0 :: (cs ++ ['\x7d', '\x7d'])) = [] := by
    simp [List.takeWhile, hsp]
  have hw2 : List.dropWhile isJsSpace (c0 :: (cs ++ ['\x7d', '\x7d']))
      = c0 :: (cs ++ ['\x7d', '\x7d']) := by
    simp [List.dropWhile, hsp]
  have hk1 : List.takeWhile isTokenChar (c0 :: (cs ++ ['\x7d', '\x7d'])) = c0 :: cs := by
    simp [List.takeWhile, htok, h3]
  have hk2 : List.dropWhile isTokenChar (c0 :: (cs ++ ['\x7d', '\x7d'])) = ['\x7d', '\x7d'] := by
    simp [List.dropWhile, htok, h4]
  have h5 : List.takeWhile isJsSpace ['\x7d', '\x7d'] = ([] : List Char) := rfl
  have h6 : List.dropWhile isJsSpace ['\x7d', '\x7d'] = ['\x7d', '\x7d'] := rfl
  simp only [matchToken, List.cons_append, hw1, hw2, hk1, hk2, h5, h6]
  simp

/-- Claim C9.  For every placeholder token in a fragment's text whose key is
a well-formed token (non-empty, over the regex class), substitution resolves
it by: (1) exact match in the supplied parameter mapping; else (2) store
lookup of the same dotted path, but only when that lookup yields a non-null,
non-undefined value; else (3) the token is left verbatim in the output. -/
theorem c9_token_priority (params : List (String × String)) (st : State) (k : String)
    (hne : k ≠ "") (hch : ∀ c ∈ k.data, isTokenChar c = true) :
    substituteParams params st ("\x7b\x7b" ++ k ++ "\x7d\x7d") =
      (match lookupA params k with
       | some v => v
       | none =>
         match getData st k with
         | some .vNull => "\x7b\x7b" ++ k ++ "\x7d\x7d"
         | some v => jsToString v
         | none => "\x7b\x7b" ++ k ++ "\x7d\x7d") := by
  obtain ⟨d⟩ := k
  have hd : d ≠ [] := fun h => hne (congrArg String.mk h)
  have hdata : ("\x7b\x7b" ++ String.mk d ++ "\x7d\x7d").data
      = '\x7b' :: '\x7b' :: (d ++ ['\x7d', '\x7d']) := rfl
  have hraw : String.mk ('\x7b' :: '\x7b' :: (d ++ ['\x7d', '\x7d']))
      = "\x7b\x7b" ++ String.mk d ++ "\x7d\x7d" := by
    rw [← hdata]
  unfold substituteParams
  rw [hdata, List.length_cons, List.length_cons]
  simp only [scanSubst, matchToken_exact d hd hch]
  rw [List.append_nil, strMk_data, hraw]
  simp only [resolveToken]

/-- Witness for C9 at the claim's own example: with `params = [theme ↦ dark]`
and a store holding a conflicting `settings.theme`, the token for `theme`
resolves to `dark`, and the token for `missing` stays verbatim. -/
theorem c9_witness :
    substituteParams [("theme", "dark")] [("settings", .vObj [("theme", .vStr "light")])]
        "\x7b\x7btheme\x7d\x7d" = "dark"
    ∧ substituteParams [("theme", "dark")] [("settings", .vObj [("theme", .vStr "light")])]
        "\x7b\x7bmissing\x7d\x7d" = "\x7b\x7bmissing\x7d\x7d" := by
  constructor
  · rw [show ("\x7b\x7btheme\x7d\x7d" : String) = "\x7b\x7b" ++ "theme" ++ "\x7d\x7d" from rfl,
      c9_token_priority _ _ "theme" (by decide) (by decide)]
    decide
  · rw [show ("\x7b\x7bmissing\x7d\x7d" : String) = "\x7b\x7b" ++ "missing" ++ "\x7d\x7d" from rfl,
      c9_token_priority _ _ "missing" (by decide) (by decide)]
    decide

/-- Claim C5 as amended.  For every valid fragment context whose condition is
satisfied (absent, empty, or evaluating truthy) and whose fetch succeeds with
non-empty text, resolution replaces the placeholder with the substituted
source content and dispatches exactly one `fragment:loaded` event (nested
fragments excluded by hypothesis); for markup sources the event detail
carries the resolved src, while for structured-text (`.md`/`.markdown`/`.mkd`)
sources it carries the LOWERCASED original src, which can differ in letter
case from the resolved src (see the counterexample). -/
theorem c5_amended (env : Env) (fuel : Nat) (frag : Frag) (s raw : String)
    (hsrc : frag.src = some s) (hs : s ≠ "")
    (hcond : frag.condition = none ∨ frag.condition = some ""
      ∨ ∃ c, frag.condition = some c ∧ env.condEval c = some true)
    (hfetch : env.fetch (some s) = some raw) (hraw : raw ≠ "")
    (hparse : env.parse (substituteParams frag.params env.store raw) = []) :
    (if isMdSrc (jsToLower s) then
      (loadFragment env (fuel + 1) frag).events = [(frag.id, jsToLower s)]
      ∧ (loadFragment env (fuel + 1) frag).repl
          = .content (substituteParams frag.params env.store (env.render raw))
     else
      (loadFragment env (fuel + 1) frag).events = [(frag.id, s)]
      ∧ (loadFragment env (fuel + 1) frag).repl
          = .content (substituteParams frag.params env.store raw)) := by
  have hres : resolveFragmentSource env frag = some s := by
    rcases hcond with h | h | ⟨c, hc, he⟩
    · simp [resolveFragmentSource, h, hsrc]
    · simp [resolveFragmentSource, h, hsrc]
    · simp [resolveFragmentSource, hc, he, hsrc]
  have hlow : lowerSrc frag = jsToLower s := by simp [lowerSrc, hsrc]
  by_cases hmd : isMdSrc (jsToLower s)
  · rw [if_pos hmd]
    constructor <;>
      simp [loadFragment, hres, hs, hsrc, hfetch, hraw, hlow, hmd]
  · rw [if_neg hmd]
    constructor <;>
      simp [loadFragment, hres, hs, hsrc, hfetch, hraw, hlow, hmd, hparse]

/-- Witness for C5 as amended, at a markup fragment whose fetch succeeds: one
`fragment:loaded` event carrying the resolved src, and the substituted
content as the replacement. -/
theorem c5_witness :
    (loadFragment envC5w 1 fragC5w).events = [(some "w1", "card.html")]
    ∧ (loadFragment envC5w 1 fragC5w).repl = .content "<div>hi</div>" := by
  have h := c5_amended envC5w 0 fragC5w "card.html" "<div>hi</div>" rfl (by decide)
    (Or.inl rfl) rfl (by decide) rfl
  rw [if_neg (by decide)] at h
  exact ⟨h.1, by rw [h.2]; rfl⟩

/-- Claim C8 (code bug).  The linked-pack template path is dead code:
`loadTemplateLinks` invokes `moveTemplateToGlobal(tmpl, mainContainer)` where
no variable `mainContainer` is declared anywhere in the program, so every
non-empty pack throws a `ReferenceError` that the per-link `catch` merely
logs — no pack template ever enters the registry.  Concretely: loading a pack
declaring `card` registers nothing and emits only the swallowed link-failure
log; a subsequent inline declaration of `card` then registers its own markup,
so the registry ends up holding the LATER declaration's markup with no
duplicate diagnostic — the claim's cross-source first-wins and pack-path
duplicate rejection cannot hold.  (The behavior registry, whose pack path is
intact, does keep the first declaration and warn on the duplicate, as the
final two conjuncts show at the same ids.) -/
theorem c8_pack_templates_never_register :
    (loadTemplatePackLink ⟨[], []⟩ "pack.html" [(some "card", "<b>1</b>")]).entries = []
    ∧ (loadTemplatePackLink ⟨[], []⟩ "pack.html" [(some "card", "<b>1</b>")]).diags
        = ["Failed to load templates from pack.html"]
    ∧ (registerTemplateInline
          (loadTemplatePackLink ⟨[], []⟩ "pack.html" [(some "card", "<b>1</b>")])
          (some "card") "<b>2</b>").entries
        = [("card", "<b>2</b>")]
    ∧ (registerTemplateInline
          (loadTemplatePackLink ⟨[], []⟩ "pack.html" [(some "card", "<b>1</b>")])
          (some "card") "<b>2</b>").diags
        = ["Failed to load templates from pack.html"]
    ∧ (runBehaviors [(some "b1", [trigC8a]), (some "b1", [trigC8b])]).entries
        = [("b1", [some ⟨"click", none, none, none, "go()", false, false, false⟩])]
    ∧ (runBehaviors [(some "b1", [trigC8a]), (some "b1", [trigC8b])]).diags
        = ["Duplicate behavior id \"b1\" encountered — skipped"] :=
  ⟨rfl, rfl, rfl, rfl, rfl, rfl⟩

end FrontendJS
